import Mathlib

/-!
Verification of the nanostack Thread commissioning API and net-sleep gate
(`src/nanostack/thread_commissioning_api.h`, `src/nanostack/net_sleep.h`).

The repository ships only the public header surface: every function is a
declaration with documentation, with no implementation under src/.  All
behavioural definitions below are therefore modelled from the specification
(spec.md), staying faithful to its words; each such definition carries a
doc comment saying so and naming the missing implementation.
-/

namespace Commissioning

/-- Error taxonomy of the spec (spec.md §7): all synchronous, recoverable
errors the public operations may return. -/
inductive CommError
  | UnknownInterface
  | NotRegistered
  | AlreadyRegistered
  | InvalidCredentialLength
  | NotFound
  | NoNetworkAvailable
  | AlreadyActive
  | SleepNotSupported
  deriving DecidableEq, Repr

/-- Commissioning states reported via the petition status callback,
mirroring `commissioning_state_e` in thread_commissioning_api.h. -/
inductive commissioning_state_e
  | COMMISSIONING_STATE_ACCEPT
  | COMMISSIONING_STATE_PENDING
  | COMMISSIONING_STATE_REJECT
  | COMMISSIONING_STATE_NO_NETWORK
  deriving DecidableEq, Repr

/-- DeviceIdentity (EUI64): 8-byte identifier, modelled as a byte list. -/
abbrev Identity := List Nat

/-- JoinerCredential (PSKd): 1..32-byte pre-shared secret, as a byte list. -/
abbrev Credential := List Nat

/-- Joiner finalisation callback `commissioning_joiner_finalisation_cb`:
takes (interface_id, EUI64, message bytes), returns 0 to accept the device,
any other value to reject it. -/
abbrev FinalizationCb := Int → Identity → List Nat → Int

/-- JoinableDeviceEntry (spec.md §3): identity, short-identity flag,
credential and finalization callback of one pre-approved device. -/
structure JoinableDeviceEntry where
  identity : Identity
  short_eui64 : Bool
  credential : Credential
  callback : FinalizationCb

/-- DeviceRegistry of one interface: entries in insertion order. -/
abbrev Registry := List JoinableDeviceEntry

/-- Registry lookup by device identity (first entry with that EUI64). -/
def lookupDevice (reg : Registry) (id : Identity) : Option JoinableDeviceEntry :=
  reg.find? (fun e => e.identity = id)

/-- Modelled from the spec: `commissioning_device_add` has no implementation
in the repository (the header only declares it).  Spec.md §4.1: validates
credential length in [1,32] (failing with `InvalidCredentialLength` and
leaving the registry unchanged), then inserts the entry, or — per §3
last-write-wins — replaces the prior entry's credential and callback in
place when the identity is already present.  Returns the error (none on
success) together with the resulting registry. -/
def commissioning_device_add (reg : Registry) (id : Identity) (short : Bool)
    (cred : Credential) (cb : FinalizationCb) : Option CommError × Registry :=
  if cred.length < 1 ∨ 32 < cred.length then
    (some CommError.InvalidCredentialLength, reg)
  else if reg.any (fun e => e.identity = id) then
    (none, reg.map (fun e => if e.identity = id then ⟨id, short, cred, cb⟩ else e))
  else
    (none, reg ++ [⟨id, short, cred, cb⟩])

/-- Modelled from the spec: `commissioning_device_delete` has no
implementation in the repository.  Spec.md §4.1: removes the entry if
present; the spec leaves the missing-identity policy open (§9), modelled
here as idempotent success. -/
def commissioning_device_delete (reg : Registry) (id : Identity) :
    Option CommError × Registry :=
  (none, reg.filter (fun e => ¬ e.identity = id))

/-- Result of dispatching a joiner finalisation message: the decision code
returned to the lower layer (0 = accept, anything else = reject) together
with the trace of callback invocations performed, each recorded as the
`(interface_id, EUI64, message bytes)` triple the callback received. -/
structure FinalizationResult where
  decision : Int
  invoked : List (Int × Identity × List Nat)
  deriving Repr

/-- Modelled from the spec: the FinalizationDispatcher behind
`commissioning_joiner_finalisation_cb` has no implementation in the
repository.  Spec.md §4.2 `handle_finalization`: looks the identity up in
the interface's registry; if absent, rejects without invoking any callback
(modelled with decision code -1); if present, invokes the entry's callback
once with `(interface, identity, message_bytes)` — the buffer passed
through unmodified — and the callback's return value is the decision
(0 accepts, any other value rejects). -/
def handle_finalization (iface : Int) (reg : Registry) (id : Identity)
    (msg : List Nat) : FinalizationResult :=
  match lookupDevice reg id with
  | none => { decision := -1, invoked := [] }
  | some e => { decision := e.callback iface id msg, invoked := [(iface, id, msg)] }

/-- PetitionSession states (spec.md §3). -/
inductive SessionState
  | UNREGISTERED
  | REGISTERED
  | PETITION_PENDING
  | ACTIVE
  | REJECTED
  deriving DecidableEq, Repr

/-- Modelled from the spec: `commissioning_petition_start` has no
implementation in the repository.  Spec.md §4.3: from UNREGISTERED it
fails with `NotRegistered` (state unchanged); from REGISTERED it sends the
petition and transitions to PETITION_PENDING, except that on network
absence it yields the no-network outcome — the UNREGISTERED-equivalent
"must scan" state — and reports NO_NETWORK via the status callback (when
one is supplied) instead of entering a live state; calling it with a
petition already underway fails with `AlreadyRegistered`.  Network
reachability is an input from the transport collaborator; the status
callback is modelled by whether one was supplied plus the list of states
reported to it. -/
def commissioning_petition_start (networkAvailable : Bool) (s : SessionState)
    (hasStatusCb : Bool) :
    Option CommError × SessionState × List commissioning_state_e :=
  match s with
  | SessionState.UNREGISTERED => (some CommError.NotRegistered, s, [])
  | SessionState.REGISTERED =>
      if networkAvailable then
        (none, SessionState.PETITION_PENDING, [])
      else
        (some CommError.NoNetworkAvailable, SessionState.UNREGISTERED,
          if hasStatusCb then [commissioning_state_e.COMMISSIONING_STATE_NO_NETWORK] else [])
  | other => (some CommError.AlreadyRegistered, other, [])

/-- The C return code of `commissioning_petition_start` per its header
documentation: 0 success, -1 no network connected, any other value other
failures (modelled as -2). -/
def petitionStartRet : Option CommError → Int
  | none => 0
  | some CommError.NoNetworkAvailable => -1
  | some _ => -2

/-- Keep-alive cadence of spec.md §4.3/§5 and the header's
"called in 40 seconds intervals", in milliseconds. -/
def KEEP_ALIVE_INTERVAL_MS : Nat := 40000

/-- Per-interface obligations the SleepGate consults (spec.md §3, §4.4):
the session state, the remaining time (ms) of the keep-alive deadline of an
ACTIVE session, and the remaining times of pending protocol timers. -/
structure IfaceObligations where
  session : SessionState
  kaDeadline : Nat
  timers : List Nat

/-- Minimum of two optional durations (`none` = no obligation). -/
def optMin : Option Nat → Option Nat → Option Nat
  | none, b => b
  | some a, none => some a
  | some a, some b => some (min a b)

/-- Sleep bound contributed by one interface's session: a PETITION_PENDING
session forbids sleep; an ACTIVE session forbids sleep when its keep-alive
deadline is within one keep-alive interval and otherwise bounds sleep by
the deadline; other states contribute nothing. -/
def sessionBound (i : IfaceObligations) : Option Nat :=
  match i.session with
  | SessionState.PETITION_PENDING => some 0
  | SessionState.ACTIVE =>
      some (if i.kaDeadline ≤ KEEP_ALIVE_INTERVAL_MS then 0 else i.kaDeadline)
  | _ => none

/-- Modelled from the spec: `arm_net_check_enter_deep_sleep_possibility`
has no implementation in the repository (net_sleep.h only declares it).
Spec.md §4.4: returns the largest duration the stack may sleep — the
minimum over all interfaces of the session's sleep bound and the pending
protocol timers, with 0 meaning no sleep is possible right now; `none`
models the unbounded case where no interface holds any obligation (which
the spec leaves without a numeric value). -/
def arm_net_check_enter_deep_sleep_possibility (g : List IfaceObligations) :
    Option Nat :=
  g.foldr (fun i acc => optMin (optMin (sessionBound i) i.timers.min?) acc) none

/-- Outcome of `arm_net_wakeup_and_timer_synch` (spec.md §4.4): header
return codes 0 / 1 / -1 respectively. -/
inductive WakeOutcome
  | Restarted
  | ContinueSleeping (remaining : Nat)
  | AlreadyActive
  deriving DecidableEq, Repr

/-- Process-wide SleepGate state: whether deep sleep is in effect, and the
outstanding deadlines (remaining ms) across all interfaces. -/
structure SleepState where
  asleep : Bool
  deadlines : List Nat

/-- Modelled from the spec: `arm_net_wakeup_and_timer_synch` has no
implementation in the repository.  Spec.md §4.4 `wakeup_and_resync`: if
sleep was not in effect, the `AlreadyActive` state error (state
untouched); otherwise, if the elapsed time reaches the smallest
outstanding deadline (or none exists), `Restarted` with every deadline
advanced by the elapsed time and the stack active again; if it falls
short, `ContinueSleeping` with the remaining margin, the stack staying
asleep. -/
def arm_net_wakeup_and_timer_synch (g : SleepState) (elapsed : Nat) :
    WakeOutcome × SleepState :=
  if g.asleep then
    match g.deadlines.min? with
    | none =>
        (WakeOutcome.Restarted, { asleep := false, deadlines := [] })
    | some m =>
        if elapsed < m then
          (WakeOutcome.ContinueSleeping (m - elapsed), g)
        else
          (WakeOutcome.Restarted,
            { asleep := false, deadlines := g.deadlines.map (fun d => d - elapsed) })
  else
    (WakeOutcome.AlreadyActive, g)

/-- Modelled from the spec: `commission_device_get_next` has no
implementation in the repository.  Spec.md §4.1 `next` / §9: the opaque
cursor is modelled as the index of the entry last returned; a `none`
cursor starts from the first entry; each call yields the next entry in
insertion order together with the cursor naming it, and `none` at the end
of the list. -/
def commission_device_next (c : Option Nat) (reg : Registry) :
    Option (Nat × JoinableDeviceEntry) :=
  match c with
  | none => reg.get? 0 |>.map (fun e => (0, e))
  | some i => reg.get? (i + 1) |>.map (fun e => (i + 1, e))

/-- Entries visited by starting from cursor `c` and repeatedly calling
`commission_device_next` with each returned cursor, bounded by `fuel`. -/
def iterTrace (reg : Registry) : Nat → Option Nat → List JoinableDeviceEntry
  | 0, _ => []
  | fuel + 1, c =>
      match commission_device_next c reg with
      | none => []
      | some (c', e) => e :: iterTrace reg fuel (some c')

/-- Memory behind the four output pointers of `commission_device_get_next`
(short_eui64, EUI64, PSKd, PSKd_len). -/
structure IterMem where
  short_eui64 : Bool
  eui64 : Identity
  pskd : Credential
  pskd_len : Nat
  deriving Repr

/-- Modelled from the spec: the C-level `commission_device_get_next`
writes the visited entry through its output pointers, each of which the
header says "Can be NULL when no result wanted".  A null pointer is
modelled as a `false` flag; the call writes only through non-null pointers
(leaving the rest of the memory untouched) and returns the same next
cursor regardless. -/
def commission_device_get_next (c : Option Nat) (reg : Registry)
    (pShort pEui pPskd pLen : Bool) (mem : IterMem) : Option Nat × IterMem :=
  match commission_device_next c reg with
  | none => (none, mem)
  | some (c', e) =>
      (some c',
        { short_eui64 := if pShort then e.short_eui64 else mem.short_eui64
          eui64 := if pEui then e.identity else mem.eui64
          pskd := if pPskd then e.credential else mem.pskd
          pskd_len := if pLen then e.credential.length else mem.pskd_len })

/-- Registry-mutating operations, for reasoning over operation histories. -/
inductive RegOp
  | add (id : Identity) (short : Bool) (cred : Credential) (cb : FinalizationCb)
  | del (id : Identity)

/-- Apply one registry operation (a failed add leaves the registry as
`commissioning_device_add` returned it: unchanged). -/
def applyOp (reg : Registry) : RegOp → Registry
  | RegOp.add id short cred cb => (commissioning_device_add reg id short cred cb).2
  | RegOp.del id => (commissioning_device_delete reg id).2

/-- Run a history of registry operations from a starting registry. -/
def runOps (reg : Registry) (ops : List RegOp) : Registry :=
  ops.foldl applyOp reg

/-- Whether a history leaves `id` present when it started present (`b`):
a successful add of `id` makes it present, a delete of `id` removes it. -/
def presentAfter (id : Identity) : List RegOp → Bool → Bool
  | [], b => b
  | op :: rest, b =>
      presentAfter id rest
        (match op with
         | RegOp.add i _ cred _ =>
             if i = id ∧ 1 ≤ cred.length ∧ cred.length ≤ 32 then true else b
         | RegOp.del i => if i = id then false else b)

/-- Identities currently in a registry, in insertion order. -/
def regIds (reg : Registry) : List Identity :=
  reg.map (fun e => e.identity)

/-- A concrete finalization callback that always accepts. -/
def cbAccept : FinalizationCb := fun _ _ _ => 0

/-- A concrete finalization callback that always rejects. -/
def cbReject : FinalizationCb := fun _ _ _ => 1

lemma lookupDevice_cons (e : JoinableDeviceEntry) (reg : Registry) (id : Identity) :
    lookupDevice (e :: reg) id =
      if e.identity = id then some e else lookupDevice reg id := by
  by_cases h : e.identity = id
  · simp [lookupDevice, List.find?_cons_of_pos, h]
  · simp [lookupDevice, List.find?_cons_of_neg, h]

lemma lookupDevice_add_same (reg : Registry) (id : Identity) (short : Bool)
    (cred : Credential) (cb : FinalizationCb)
    (h1 : 1 ≤ cred.length) (h2 : cred.length ≤ 32) :
    lookupDevice (commissioning_device_add reg id short cred cb).2 id =
      some ⟨id, short, cred, cb⟩ := by
  unfold commissioning_device_add
  rw [if_neg (by omega)]
  by_cases hany : reg.any (fun e => e.identity = id)
  · rw [if_pos hany]
    unfold lookupDevice
    rw [List.find?_map]
    have hpf : ((fun e : JoinableDeviceEntry => decide (e.identity = id)) ∘
          (fun e : JoinableDeviceEntry =>
            if e.identity = id then ⟨id, short, cred, cb⟩ else e)) =
        (fun e : JoinableDeviceEntry => decide (e.identity = id)) := by
      funext e
      by_cases he : e.identity = id
      · simp [he]
      · simp [he]
    rw [hpf]
    rw [List.any_eq_true] at hany
    obtain ⟨x, hxmem, hxp⟩ := hany
    have hsome : (List.find? (fun e : JoinableDeviceEntry => decide (e.identity = id))
        reg).isSome := by
      rw [List.find?_isSome]
      exact ⟨x, hxmem, hxp⟩
    obtain ⟨e1, he1⟩ := Option.isSome_iff_exists.mp hsome
    have hid1 : e1.identity = id := by simpa using List.find?_some he1
    rw [he1]
    simp [hid1]
  · rw [if_neg hany]
    unfold lookupDevice
    rw [List.find?_append]
    have h0 : List.find? (fun e : JoinableDeviceEntry => decide (e.identity = id))
        reg = none := by
      rw [List.find?_eq_none]
      intro x hx hpx
      exact hany (List.any_eq_true.mpr ⟨x, hx, hpx⟩)
    rw [h0]
    simp [List.find?]

lemma lookupDevice_add_other (reg : Registry) (i id : Identity) (short : Bool)
    (cred : Credential) (cb : FinalizationCb) (hne : i ≠ id) :
    lookupDevice (commissioning_device_add reg i short cred cb).2 id =
      lookupDevice reg id := by
  unfold commissioning_device_add
  by_cases hv : cred.length < 1 ∨ 32 < cred.length
  · rw [if_pos hv]
  · rw [if_neg hv]
    by_cases hany : reg.any (fun e => e.identity = i)
    · rw [if_pos hany]
      unfold lookupDevice
      rw [List.find?_map]
      have hpf : ((fun e : JoinableDeviceEntry => decide (e.identity = id)) ∘
            (fun e : JoinableDeviceEntry =>
              if e.identity = i then ⟨i, short, cred, cb⟩ else e)) =
          (fun e : JoinableDeviceEntry => decide (e.identity = id)) := by
        funext e
        by_cases he : e.identity = i
        · simp [he, hne]
        · simp [he]
      rw [hpf]
      cases hfind : List.find? (fun e : JoinableDeviceEntry => decide (e.identity = id))
          reg with
      | none => simp
      | some e1 =>
        have hid1 : e1.identity = id := by simpa using List.find?_some hfind
        have hne1 : ¬ e1.identity = i := by
          rw [hid1]
          intro hc
          exact hne hc.symm
        simp [hne1]
    · rw [if_neg hany]
      unfold lookupDevice
      rw [List.find?_append]
      have h1 : List.find? (fun e : JoinableDeviceEntry => decide (e.identity = id))
          [⟨i, short, cred, cb⟩] = none := by
        simp [List.find?, hne]
      rw [h1, Option.or_none]

lemma lookupDevice_del_same (reg : Registry) (id : Identity) :
    lookupDevice (commissioning_device_delete reg id).2 id = none := by
  unfold commissioning_device_delete lookupDevice
  rw [List.find?_filter, List.find?_eq_none]
  intro x _
  simp

lemma lookupDevice_del_other (reg : Registry) (i id : Identity) (hne : i ≠ id) :
    lookupDevice (commissioning_device_delete reg i).2 id = lookupDevice reg id := by
  unfold commissioning_device_delete lookupDevice
  rw [List.find?_filter]
  have hpf : (fun a : JoinableDeviceEntry =>
        decide ((fun e : JoinableDeviceEntry => decide ¬ e.identity = i) a = true ∧
          (fun e : JoinableDeviceEntry => decide (e.identity = id)) a = true)) =
      (fun e : JoinableDeviceEntry => decide (e.identity = id)) := by
    funext e
    by_cases he : e.identity = id
    · have hid : ¬ id = i := fun hc => hne hc.symm
      simp [he, hid]
    · simp [he]
  rw [hpf]

/-- Claim C2: for every credential length L, `commissioning_device_add`
succeeds when 1 ≤ L ≤ 32, and fails with `InvalidCredentialLength` when
L = 0 or L > 32, leaving the registry unchanged in the failure case. -/
theorem device_add_credential_length (reg : Registry) (id : Identity)
    (short : Bool) (cred : Credential) (cb : FinalizationCb) :
    (1 ≤ cred.length → cred.length ≤ 32 →
      (commissioning_device_add reg id short cred cb).1 = none) ∧
    (cred.length = 0 ∨ 32 < cred.length →
      commissioning_device_add reg id short cred cb =
        (some CommError.InvalidCredentialLength, reg)) := by
  constructor
  · intro h1 h2
    unfold commissioning_device_add
    rw [if_neg (by omega)]
    by_cases hany : reg.any (fun e => e.identity = id)
    · rw [if_pos hany]
    · rw [if_neg hany]
  · intro h
    unfold commissioning_device_add
    rw [if_pos (by omega)]

theorem device_add_credential_length_witness :
    (commissioning_device_add [] [1, 2, 3, 4, 5, 6, 7, 8] true [97] cbAccept).1 = none ∧
    commissioning_device_add [] [1, 2, 3, 4, 5, 6, 7, 8] true [] cbAccept =
      (some CommError.InvalidCredentialLength, []) :=
  ⟨(device_add_credential_length [] [1, 2, 3, 4, 5, 6, 7, 8] true [97] cbAccept).1
      (by decide) (by decide),
   (device_add_credential_length [] [1, 2, 3, 4, 5, 6, 7, 8] true [] cbAccept).2
      (Or.inl rfl)⟩

/-- Claim C3: for every interface and every identity present in the
registry, `handle_finalization` invokes exactly that entry's callback
exactly once, passing the message buffer through unmodified, and the
returned decision is 0 (accept) iff the callback returned 0. -/
theorem handle_finalization_known (iface : Int) (reg : Registry) (id : Identity)
    (msg : List Nat) (e : JoinableDeviceEntry) (h : lookupDevice reg id = some e) :
    (handle_finalization iface reg id msg).invoked = [(iface, id, msg)] ∧
    (handle_finalization iface reg id msg).decision = e.callback iface id msg ∧
    ((handle_finalization iface reg id msg).decision = 0 ↔
      e.callback iface id msg = 0) := by
  unfold handle_finalization
  rw [h]
  exact ⟨rfl, rfl, Iff.rfl⟩

theorem handle_finalization_known_witness :
    (handle_finalization 3 [⟨[1, 2, 3, 4, 5, 6, 7, 8], true, [97], cbAccept⟩]
        [1, 2, 3, 4, 5, 6, 7, 8] [9, 9]).invoked =
      [(3, [1, 2, 3, 4, 5, 6, 7, 8], [9, 9])] ∧
    (handle_finalization 3 [⟨[1, 2, 3, 4, 5, 6, 7, 8], true, [97], cbAccept⟩]
        [1, 2, 3, 4, 5, 6, 7, 8] [9, 9]).decision =
      cbAccept 3 [1, 2, 3, 4, 5, 6, 7, 8] [9, 9] ∧
    ((handle_finalization 3 [⟨[1, 2, 3, 4, 5, 6, 7, 8], true, [97], cbAccept⟩]
        [1, 2, 3, 4, 5, 6, 7, 8] [9, 9]).decision = 0 ↔
      cbAccept 3 [1, 2, 3, 4, 5, 6, 7, 8] [9, 9] = 0) :=
  handle_finalization_known 3 [⟨[1, 2, 3, 4, 5, 6, 7, 8], true, [97], cbAccept⟩]
    [1, 2, 3, 4, 5, 6, 7, 8] [9, 9] ⟨[1, 2, 3, 4, 5, 6, 7, 8], true, [97], cbAccept⟩ rfl

lemma lookup_isSome_runOps (ops : List RegOp) (reg : Registry) (id : Identity) :
    (lookupDevice (runOps reg ops) id).isSome =
      presentAfter id ops (lookupDevice reg id).isSome := by
  induction ops generalizing reg with
  | nil => rfl
  | cons op rest ih =>
    have hrun : runOps reg (op :: rest) = runOps (applyOp reg op) rest := rfl
    rw [hrun, ih (applyOp reg op)]
    cases op with
    | add i short cred cb =>
      have hstep : presentAfter id (RegOp.add i short cred cb :: rest)
            (lookupDevice reg id).isSome =
          presentAfter id rest
            (if i = id ∧ 1 ≤ cred.length ∧ cred.length ≤ 32 then true
             else (lookupDevice reg id).isSome) := rfl
      rw [hstep]
      apply congrArg (presentAfter id rest)
      by_cases hv : 1 ≤ cred.length ∧ cred.length ≤ 32
      · by_cases hi : i = id
        · subst hi
          rw [if_pos ⟨rfl, hv⟩]
          simp only [applyOp]
          rw [lookupDevice_add_same _ _ _ _ _ hv.1 hv.2]
          rfl
        · rw [if_neg (fun hc => hi hc.1)]
          simp only [applyOp]
          rw [lookupDevice_add_other _ _ _ _ _ _ hi]
      · rw [if_neg (fun hc => hv hc.2)]
        have hreg : (commissioning_device_add reg i short cred cb).2 = reg := by
          unfold commissioning_device_add
          rw [if_pos (by omega)]
        simp only [applyOp]
        rw [hreg]
    | del i =>
      have hstep : presentAfter id (RegOp.del i :: rest)
            (lookupDevice reg id).isSome =
          presentAfter id rest
            (if i = id then false else (lookupDevice reg id).isSome) := rfl
      rw [hstep]
      apply congrArg (presentAfter id rest)
      by_cases hi : i = id
      · subst hi
        rw [if_pos rfl]
        simp only [applyOp]
        rw [lookupDevice_del_same]
        rfl
      · rw [if_neg hi]
        simp only [applyOp]
        rw [lookupDevice_del_other _ _ _ hi]

/-- Claim C1: for every interface, identity and message, if the identity
was never (successfully) added to the interface's registry by
`commissioning_device_add` since the registry was created — or every add
was undone by `commissioning_device_delete` — then `handle_finalization`
rejects the joiner (nonzero decision) and invokes no callback at all. -/
theorem handle_finalization_unknown (iface : Int) (msg : List Nat) (id : Identity)
    (ops : List RegOp) (h : presentAfter id ops false = false) :
    (handle_finalization iface (runOps [] ops) id msg).invoked = [] ∧
    (handle_finalization iface (runOps [] ops) id msg).decision ≠ 0 := by
  have hl : lookupDevice (runOps [] ops) id = none := by
    have hs := lookup_isSome_runOps ops [] id
    have hn : (lookupDevice ([] : Registry) id).isSome = false := rfl
    rw [hn, h] at hs
    exact Option.not_isSome_iff_eq_none.mp (by simp [hs])
  unfold handle_finalization
  rw [hl]
  refine ⟨rfl, ?_⟩
  show (-1 : Int) ≠ 0
  decide

theorem handle_finalization_unknown_witness :
    presentAfter [1, 2, 3, 4, 5, 6, 7, 8]
        [RegOp.add [1, 2, 3, 4, 5, 6, 7, 8] true [97] cbAccept,
         RegOp.del [1, 2, 3, 4, 5, 6, 7, 8]] false = false ∧
    (handle_finalization 1
        (runOps [] [RegOp.add [1, 2, 3, 4, 5, 6, 7, 8] true [97] cbAccept,
          RegOp.del [1, 2, 3, 4, 5, 6, 7, 8]])
        [1, 2, 3, 4, 5, 6, 7, 8] [5, 5]).invoked = [] ∧
    (handle_finalization 1
        (runOps [] [RegOp.add [1, 2, 3, 4, 5, 6, 7, 8] true [97] cbAccept,
          RegOp.del [1, 2, 3, 4, 5, 6, 7, 8]])
        [1, 2, 3, 4, 5, 6, 7, 8] [5, 5]).decision ≠ 0 := by
  refine ⟨rfl, ?_⟩
  exact handle_finalization_unknown 1 [5, 5] [1, 2, 3, 4, 5, 6, 7, 8]
    [RegOp.add [1, 2, 3, 4, 5, 6, 7, 8] true [97] cbAccept,
     RegOp.del [1, 2, 3, 4, 5, 6, 7, 8]] rfl

lemma nodup_regIds_applyOp (reg : Registry) (op : RegOp)
    (h : (regIds reg).Nodup) : (regIds (applyOp reg op)).Nodup := by
  cases op with
  | add i short cred cb =>
    simp only [applyOp]
    unfold commissioning_device_add
    by_cases hv : cred.length < 1 ∨ 32 < cred.length
    · rw [if_pos hv]
      exact h
    · rw [if_neg hv]
      by_cases hany : reg.any (fun e => e.identity = i)
      · rw [if_pos hany]
        have hids : regIds (reg.map (fun e =>
            if e.identity = i then ⟨i, short, cred, cb⟩ else e)) = regIds reg := by
          unfold regIds
          rw [List.map_map]
          apply List.map_congr_left
          intro e _
          by_cases hei : e.identity = i
          · simp [hei]
          · simp [hei]
        rw [hids]
        exact h
      · rw [if_neg hany]
        unfold regIds
        rw [List.map_append]
        apply List.Nodup.append h (by simp)
        intro a ha hb
        simp only [List.map_cons, List.map_nil, List.mem_singleton] at hb
        subst hb
        apply hany
        rw [List.any_eq_true]
        unfold regIds at ha
        obtain ⟨e, hemem, heid⟩ := List.mem_map.mp ha
        exact ⟨e, hemem, by simp [heid]⟩
  | del i =>
    simp only [applyOp]
    unfold commissioning_device_delete regIds
    unfold regIds at h
    exact ((List.filter_sublist reg).map (fun e => e.identity)).nodup h

lemma nodup_regIds_runOps (ops : List RegOp) : (regIds (runOps [] ops)).Nodup := by
  suffices h : ∀ reg, (regIds reg).Nodup → (regIds (runOps reg ops)).Nodup by
    exact h [] (by simp [regIds])
  induction ops with
  | nil => exact fun reg h => h
  | cons op rest ih => exact fun reg h => ih (applyOp reg op) (nodup_regIds_applyOp reg op h)

/-- Claim C8: after any history of add/delete operations the registry
holds at most one entry per identity, and adding an identity already
present succeeds and replaces the prior entry's credential and callback
together — the looked-up entry is exactly the new one (no old-credential /
new-callback mixture) and every other identity's entry is untouched. -/
theorem registry_unique_replace (ops : List RegOp) (id : Identity) (short : Bool)
    (cred : Credential) (cb : FinalizationCb)
    (h1 : 1 ≤ cred.length) (h2 : cred.length ≤ 32) :
    (regIds (runOps [] ops)).Nodup ∧
    (commissioning_device_add (runOps [] ops) id short cred cb).1 = none ∧
    lookupDevice (commissioning_device_add (runOps [] ops) id short cred cb).2 id =
      some ⟨id, short, cred, cb⟩ ∧
    ∀ id2, id2 ≠ id →
      lookupDevice (commissioning_device_add (runOps [] ops) id short cred cb).2 id2 =
        lookupDevice (runOps [] ops) id2 := by
  refine ⟨nodup_regIds_runOps ops, ?_,
    lookupDevice_add_same (runOps [] ops) id short cred cb h1 h2, ?_⟩
  · unfold commissioning_device_add
    rw [if_neg (by omega)]
    by_cases hany : (runOps [] ops).any (fun e => e.identity = id)
    · rw [if_pos hany]
    · rw [if_neg hany]
  · intro id2 hne
    exact lookupDevice_add_other (runOps [] ops) id id2 short cred cb (Ne.symm hne)

theorem registry_unique_replace_witness :
    (regIds (runOps [] [RegOp.add [1] true [97] cbAccept])).Nodup ∧
    (commissioning_device_add (runOps [] [RegOp.add [1] true [97] cbAccept])
      [1] false [98] cbReject).1 = none ∧
    lookupDevice (commissioning_device_add (runOps [] [RegOp.add [1] true [97] cbAccept])
      [1] false [98] cbReject).2 [1] = some ⟨[1], false, [98], cbReject⟩ ∧
    lookupDevice (commissioning_device_add (runOps [] [RegOp.add [1] true [97] cbAccept])
      [1] false [98] cbReject).2 [2] =
      lookupDevice (runOps [] [RegOp.add [1] true [97] cbAccept]) [2] := by
  have T := registry_unique_replace [RegOp.add [1] true [97] cbAccept]
    [1] false [98] cbReject (by decide) (by decide)
  exact ⟨T.1, T.2.1, T.2.2.1, T.2.2.2 [2] (by decide)⟩

/-- Claim C4 counterexample: with the session REGISTERED but no network
authority reachable, `commissioning_petition_start` does not succeed and
does not transition to PETITION_PENDING — it fails with the no-network
outcome, refuting the unconditional claim. -/
theorem petition_start_registered_counterexample :
    (commissioning_petition_start false SessionState.REGISTERED true).1 ≠ none ∧
    (commissioning_petition_start false SessionState.REGISTERED true).2.1 ≠
      SessionState.PETITION_PENDING := by
  decide

/-- Claim C4 (amended): `commissioning_petition_start` from UNREGISTERED
fails with `NotRegistered` leaving the state unchanged; from REGISTERED,
provided a network authority is reachable, it succeeds and transitions the
session to PETITION_PENDING. -/
theorem petition_start_state_machine (net hasCb : Bool) (s : SessionState) :
    (s = SessionState.UNREGISTERED →
      commissioning_petition_start net s hasCb =
        (some CommError.NotRegistered, SessionState.UNREGISTERED, [])) ∧
    (s = SessionState.REGISTERED → net = true →
      commissioning_petition_start net s hasCb =
        (none, SessionState.PETITION_PENDING, [])) := by
  constructor
  · intro hs
    subst hs
    rfl
  · intro hs hn
    subst hs
    subst hn
    rfl

theorem petition_start_state_machine_witness :
    commissioning_petition_start true SessionState.UNREGISTERED true =
      (some CommError.NotRegistered, SessionState.UNREGISTERED, []) ∧
    commissioning_petition_start true SessionState.REGISTERED true =
      (none, SessionState.PETITION_PENDING, []) :=
  ⟨(petition_start_state_machine true true SessionState.UNREGISTERED).1 rfl,
   (petition_start_state_machine true true SessionState.REGISTERED).2 rfl rfl⟩

/-- Claim C9: petitioning from REGISTERED with no network authority
reachable yields the synchronous no-network outcome (`NoNetworkAvailable`,
C return code -1), does not transition the session to a live state
(neither PETITION_PENDING nor ACTIVE), and reports the NO_NETWORK
commissioning state through the status callback. -/
theorem petition_start_no_network :
    (commissioning_petition_start false SessionState.REGISTERED true).1 =
      some CommError.NoNetworkAvailable ∧
    petitionStartRet
      (commissioning_petition_start false SessionState.REGISTERED true).1 = -1 ∧
    (commissioning_petition_start false SessionState.REGISTERED true).2.1 ≠
      SessionState.PETITION_PENDING ∧
    (commissioning_petition_start false SessionState.REGISTERED true).2.1 ≠
      SessionState.ACTIVE ∧
    (commissioning_petition_start false SessionState.REGISTERED true).2.2 =
      [commissioning_state_e.COMMISSIONING_STATE_NO_NETWORK] := by
  decide

/-- Claim C6: waking after `D` elapsed when deep sleep is in effect
returns `Restarted` and advances every deadline by `D` when `D` reaches
the smallest outstanding deadline, returns `ContinueSleeping` with the
remaining margin when it does not, and returns the `AlreadyActive` error
when the stack was not asleep. -/
theorem wakeup_and_resync_spec (g : SleepState) (D m : Nat) :
    (g.asleep = true → m ∈ g.deadlines → (∀ d ∈ g.deadlines, m ≤ d) →
      ((m ≤ D →
          arm_net_wakeup_and_timer_synch g D =
            (WakeOutcome.Restarted,
              { asleep := false, deadlines := g.deadlines.map (fun d => d - D) })) ∧
       (D < m →
          arm_net_wakeup_and_timer_synch g D =
            (WakeOutcome.ContinueSleeping (m - D), g)))) ∧
    (g.asleep = false →
      arm_net_wakeup_and_timer_synch g D = (WakeOutcome.AlreadyActive, g)) := by
  constructor
  · intro ha hmem hmin
    have hms : g.deadlines.min? = some m :=
      (List.min?_eq_some_iff Nat.le_refl (fun a b => min_choice a b)
        (fun _ _ _ => le_min_iff)).mpr ⟨hmem, hmin⟩
    constructor
    · intro hle
      have hnl : ¬ D < m := by omega
      simp [arm_net_wakeup_and_timer_synch, ha, hms, hnl]
    · intro hlt
      simp [arm_net_wakeup_and_timer_synch, ha, hms, hlt]
  · intro ha
    simp [arm_net_wakeup_and_timer_synch, ha]

theorem wakeup_and_resync_spec_witness :
    arm_net_wakeup_and_timer_synch ⟨true, [50, 70]⟩ 60 =
      (WakeOutcome.Restarted,
        { asleep := false, deadlines := [50, 70].map (fun d => d - 60) }) ∧
    arm_net_wakeup_and_timer_synch ⟨true, [50, 70]⟩ 20 =
      (WakeOutcome.ContinueSleeping 30, ⟨true, [50, 70]⟩) ∧
    arm_net_wakeup_and_timer_synch ⟨false, [50, 70]⟩ 60 =
      (WakeOutcome.AlreadyActive, ⟨false, [50, 70]⟩) :=
  ⟨((wakeup_and_resync_spec ⟨true, [50, 70]⟩ 60 50).1 rfl (by decide) (by decide)).1
      (by decide),
   ((wakeup_and_resync_spec ⟨true, [50, 70]⟩ 20 50).1 rfl (by decide) (by decide)).2
      (by decide),
   (wakeup_and_resync_spec ⟨false, [50, 70]⟩ 60 50).2 rfl⟩

lemma iterTrace_drop (reg : Registry) :
    ∀ (fuel k : Nat), reg.length ≤ k + 1 + fuel →
      iterTrace reg fuel (some k) = reg.drop (k + 1) := by
  intro fuel
  induction fuel with
  | zero =>
    intro k h
    exact (List.drop_eq_nil_of_le (by omega)).symm
  | succ f ih =>
    intro k h
    by_cases hk : k + 1 < reg.length
    · have hnext : commission_device_next (some k) reg =
          some (k + 1, reg.get ⟨k + 1, hk⟩) := by
        show Option.map (fun e => (k + 1, e)) (reg.get? (k + 1)) = _
        rw [List.get?_eq_get hk]
        rfl
      have hstep : iterTrace reg (f + 1) (some k) =
          reg.get ⟨k + 1, hk⟩ :: iterTrace reg f (some (k + 1)) := by
        simp only [iterTrace]
        rw [hnext]
      rw [hstep, ih (k + 1) (by omega)]
      exact (List.drop_eq_getElem_cons hk).symm
    · have hget : reg.get? (k + 1) = none := by
        rw [List.get?_eq_none]
        omega
      have hnext : commission_device_next (some k) reg = none := by
        show Option.map (fun e => (k + 1, e)) (reg.get? (k + 1)) = _
        rw [hget]
        rfl
      have hstep : iterTrace reg (f + 1) (some k) = [] := by
        simp only [iterTrace]
        rw [hnext]
      rw [hstep]
      exact (List.drop_eq_nil_of_le (by omega)).symm

/-- Claim C7: starting from the null cursor, repeatedly calling the
iterator with each returned cursor visits every registered device exactly
once in insertion order (the collected trace is the registry itself), and
after the last entry the iterator returns none. -/
theorem device_iterate_complete (reg : Registry) (fuel : Nat)
    (h : reg.length ≤ fuel) :
    iterTrace reg fuel none = reg ∧
    ∀ i, reg.length ≤ i + 1 → commission_device_next (some i) reg = none := by
  constructor
  · cases reg with
    | nil =>
      cases fuel with
      | zero => rfl
      | succ f => rfl
    | cons e t =>
      cases fuel with
      | zero => simp at h
      | succ f =>
        have hnext : commission_device_next none (e :: t) = some (0, e) := rfl
        have hstep : iterTrace (e :: t) (f + 1) none =
            e :: iterTrace (e :: t) f (some 0) := by
          simp only [iterTrace]
          rw [hnext]
        rw [hstep, iterTrace_drop (e :: t) f 0
          (by simp only [List.length_cons] at h ⊢; omega)]
        rfl
  · intro i hi
    have hget : reg.get? (i + 1) = none := by
      rw [List.get?_eq_none]
      omega
    show Option.map (fun e => (i + 1, e)) (reg.get? (i + 1)) = none
    rw [hget]
    rfl

theorem device_iterate_complete_witness :
    iterTrace [⟨[1], true, [97], cbAccept⟩, ⟨[2], false, [98], cbReject⟩] 2 none =
      [⟨[1], true, [97], cbAccept⟩, ⟨[2], false, [98], cbReject⟩] ∧
    commission_device_next (some 1)
      [⟨[1], true, [97], cbAccept⟩, ⟨[2], false, [98], cbReject⟩] = none :=
  ⟨(device_iterate_complete
      [⟨[1], true, [97], cbAccept⟩, ⟨[2], false, [98], cbReject⟩] 2 (by decide)).1,
   (device_iterate_complete
      [⟨[1], true, [97], cbAccept⟩, ⟨[2], false, [98], cbReject⟩] 2 (by decide)).2
      1 (by decide)⟩

/-- Claim C10: each output pointer of `commission_device_get_next` may
independently be null; the returned cursor is the one the underlying
iteration yields regardless of which pointers are null, and nothing is
written through a null pointer (that slot of the memory is unchanged). -/
theorem device_get_next_null_outputs (c : Option Nat) (reg : Registry)
    (pShort pEui pPskd pLen : Bool) (mem : IterMem) :
    (commission_device_get_next c reg pShort pEui pPskd pLen mem).1 =
      (commission_device_next c reg).map (fun x => x.1) ∧
    (pShort = false →
      (commission_device_get_next c reg pShort pEui pPskd pLen mem).2.short_eui64 =
        mem.short_eui64) ∧
    (pEui = false →
      (commission_device_get_next c reg pShort pEui pPskd pLen mem).2.eui64 =
        mem.eui64) ∧
    (pPskd = false →
      (commission_device_get_next c reg pShort pEui pPskd pLen mem).2.pskd =
        mem.pskd) ∧
    (pLen = false →
      (commission_device_get_next c reg pShort pEui pPskd pLen mem).2.pskd_len =
        mem.pskd_len) := by
  unfold commission_device_get_next
  cases commission_device_next c reg with
  | none => exact ⟨rfl, fun _ => rfl, fun _ => rfl, fun _ => rfl, fun _ => rfl⟩
  | some p =>
    obtain ⟨c1, e⟩ := p
    refine ⟨rfl, ?_, ?_, ?_, ?_⟩ <;> intro hp <;> simp [hp]

theorem device_get_next_null_outputs_witness :
    (commission_device_get_next none [⟨[1], true, [97], cbAccept⟩]
        false false false false ⟨false, [], [], 0⟩).1 =
      (commission_device_next none [⟨[1], true, [97], cbAccept⟩]).map (fun x => x.1) ∧
    (commission_device_get_next none [⟨[1], true, [97], cbAccept⟩]
        false false false false ⟨false, [], [], 0⟩).2.short_eui64 = false ∧
    (commission_device_get_next none [⟨[1], true, [97], cbAccept⟩]
        false false false false ⟨false, [], [], 0⟩).2.eui64 = [] ∧
    (commission_device_get_next none [⟨[1], true, [97], cbAccept⟩]
        false false false false ⟨false, [], [], 0⟩).2.pskd = [] ∧
    (commission_device_get_next none [⟨[1], true, [97], cbAccept⟩]
        false false false false ⟨false, [], [], 0⟩).2.pskd_len = 0 :=
  ⟨(device_get_next_null_outputs none [⟨[1], true, [97], cbAccept⟩]
      false false false false ⟨false, [], [], 0⟩).1,
   (device_get_next_null_outputs none [⟨[1], true, [97], cbAccept⟩]
      false false false false ⟨false, [], [], 0⟩).2.1 rfl,
   (device_get_next_null_outputs none [⟨[1], true, [97], cbAccept⟩]
      false false false false ⟨false, [], [], 0⟩).2.2.1 rfl,
   (device_get_next_null_outputs none [⟨[1], true, [97], cbAccept⟩]
      false false false false ⟨false, [], [], 0⟩).2.2.2.1 rfl,
   (device_get_next_null_outputs none [⟨[1], true, [97], cbAccept⟩]
      false false false false ⟨false, [], [], 0⟩).2.2.2.2 rfl⟩

lemma optMin_assoc (a b c : Option Nat) :
    optMin (optMin a b) c = optMin a (optMin b c) := by
  cases a <;> cases b <;> cases c <;> simp [optMin, min_assoc]

lemma min?_cons_optMin (a : Nat) (l : List Nat) :
    (a :: l).min? = optMin (some a) l.min? := by
  induction l generalizing a with
  | nil => rfl
  | cons b t ih =>
    calc (a :: b :: t).min? = ((min a b) :: t).min? := rfl
      _ = optMin (some (min a b)) t.min? := ih (min a b)
      _ = optMin (some a) (optMin (some b) t.min?) := by
          cases t.min? <;> simp [optMin, min_assoc]
      _ = optMin (some a) ((b :: t).min?) := by rw [ih b]

lemma min?_append (l1 l2 : List Nat) :
    (l1 ++ l2).min? = optMin l1.min? l2.min? := by
  induction l1 with
  | nil => rfl
  | cons a t ih =>
    rw [List.cons_append, min?_cons_optMin, ih, min?_cons_optMin, optMin_assoc]

/-- Conditions under which the spec says no sleep is possible right now:
a PETITION_PENDING session outstanding, or an ACTIVE session within one
keep-alive interval of its deadline. -/
def sleepBlocked (i : IfaceObligations) : Prop :=
  i.session = SessionState.PETITION_PENDING ∨
    (i.session = SessionState.ACTIVE ∧ i.kaDeadline ≤ KEEP_ALIVE_INTERVAL_MS)

instance (i : IfaceObligations) : Decidable ( sleepBlocked i) :=
  inferInstanceAs (Decidable (_ ∨ _))

/-- Deadlines one interface holds, in the spec's words: the keep-alive
deadline of an ACTIVE session plus the pending protocol timers. -/
def remainingDeadlines (i : IfaceObligations) : List Nat :=
  (match i.session with
   | SessionState.ACTIVE => [i.kaDeadline]
   | _ => []) ++ i.timers

/-- All outstanding deadlines across all interfaces. -/
def allDeadlines : List IfaceObligations → List Nat
  | [] => []
  | i :: rest => remainingDeadlines i ++ allDeadlines rest

/-- Claim C5: the sleep-possibility check returns 0 whenever some
interface holds an ACTIVE session within one keep-alive interval of its
deadline or a PETITION_PENDING session outstanding; otherwise it returns
the minimum remaining deadline (keep-alive deadlines and pending protocol
timers) across all interfaces. -/
theorem check_sleep_possibility_spec (g : List IfaceObligations) :
    ((∃ i ∈ g, sleepBlocked i) →
      arm_net_check_enter_deep_sleep_possibility g = some 0) ∧
    ((∀ i ∈ g, ¬ sleepBlocked i) →
      arm_net_check_enter_deep_sleep_possibility g = (allDeadlines g).min?) := by
  induction g with
  | nil => exact ⟨fun h => absurd h (by simp), fun _ => rfl⟩
  | cons i rest ih =>
    have hfold : arm_net_check_enter_deep_sleep_possibility (i :: rest) =
        optMin (optMin (sessionBound i) i.timers.min?)
          (arm_net_check_enter_deep_sleep_possibility rest) := rfl
    constructor
    · rintro ⟨j, hj, hbl⟩
      rw [hfold]
      rcases List.mem_cons.mp hj with hji | hjr
      · subst hji
        have hsb : sessionBound j = some 0 := by
          rcases hbl with hp | ⟨ha, hd⟩
          · unfold sessionBound
            rw [hp]
          · unfold sessionBound
            rw [ha, if_pos hd]
        rw [hsb]
        cases j.timers.min? <;>
          cases arm_net_check_enter_deep_sleep_possibility rest <;> simp [optMin]
      · rw [ih.1 ⟨j, hjr, hbl⟩]
        cases optMin (sessionBound i) i.timers.min? <;> simp [optMin]
    · intro hall
      rw [hfold, ih.2 (fun j hj => hall j (List.mem_cons_of_mem i hj))]
      have hfold2 : allDeadlines (i :: rest) =
          remainingDeadlines i ++ allDeadlines rest := rfl
      rw [hfold2, min?_append]
      have hni := hall i (List.mem_cons_self i rest)
      apply congrArg (fun x => optMin x (allDeadlines rest).min?)
      obtain ⟨s, ka, tm⟩ := i
      cases s with
      | PETITION_PENDING => exact absurd (Or.inl rfl) hni
      | ACTIVE =>
        have hd : ¬ ka ≤ KEEP_ALIVE_INTERVAL_MS := fun hd => hni (Or.inr ⟨rfl, hd⟩)
        show optMin (some (if ka ≤ KEEP_ALIVE_INTERVAL_MS then 0 else ka)) tm.min? =
          (ka :: tm).min?
        rw [if_neg hd, min?_cons_optMin]
      | UNREGISTERED => rfl
      | REGISTERED => rfl
      | REJECTED => rfl

theorem check_sleep_possibility_spec_witness :
    arm_net_check_enter_deep_sleep_possibility
      [⟨SessionState.PETITION_PENDING, 0, []⟩] = some 0 ∧
    arm_net_check_enter_deep_sleep_possibility
        [⟨SessionState.ACTIVE, 100000, [70000]⟩, ⟨SessionState.REGISTERED, 0, [90000]⟩] =
      (allDeadlines
        [⟨SessionState.ACTIVE, 100000, [70000]⟩,
         ⟨SessionState.REGISTERED, 0, [90000]⟩]).min? :=
  ⟨(check_sleep_possibility_spec [⟨SessionState.PETITION_PENDING, 0, []⟩]).1
      (by decide),
   (check_sleep_possibility_spec
      [⟨SessionState.ACTIVE, 100000, [70000]⟩,
       ⟨SessionState.REGISTERED, 0, [90000]⟩]).2 (by decide)⟩

end Commissioning
